import Mathlib

/-!
Verification of the ContentOps backend (`src/server.js`, version 2.3).

Content is modelled as `List Char`; JavaScript string concatenation is list
append, `string.length` is `List.length`.  Outbound network calls (Anthropic
LLM calls, Brave search requests) are modelled by oracle functions supplied as
parameters, and the wall-clock deadline checks (`Date.now() - startTime >
TIMEOUT_MS`) by boolean-valued functions of the loop index / check site.
Fallible code is modelled with `Except`: in particular `splitIntoChunks`
constructs a `DOMParser` (line 77), which Node does not provide, so the
function raises a `ReferenceError` on every call; the regex splitter written
below that line is embedded separately as `splitIntoChunksBody`.
-/

namespace ContentOps

/-! ## Chunker: `splitIntoChunks` (server.js lines 75-102)

Line 77 runs `const parser = new DOMParser()`.  Node defines no global
`DOMParser` (the comment on line 79 acknowledges as much), so that statement
raises `ReferenceError: DOMParser is not defined` on every call and the
splitter below it never executes.  The splitter code, embedded here as
`splitIntoChunksBody`, would split the content with
`htmlContent.split(/(<h[1-3][^>]*>.*?<\/h[1-3]>)/gi)`:
the heading delimiters are kept (single capture group), `[^>]*` runs up to the
first `>`, the lazy `.*?` stops at the first closing tag `</h[1-3]>`, `.` does
not match a line terminator, and the `i` flag makes `h` case-insensitive. -/

/-- The letter of a heading tag under the regex `i` flag. -/
def isHchar (c : Char) : Bool := c = 'h' || c = 'H'

/-- Heading levels 1-3 admitted by the character class `[1-3]`. -/
def isDigit13 (c : Char) : Bool := c = '1' || c = '2' || c = '3'

/-- Characters matched by `.` in a JavaScript regex without the `s` flag:
anything but a line terminator. -/
def isDotChar (c : Char) : Bool :=
  !(c = '\n' || c = '\r' || c = '\u2028' || c = '\u2029')

/-- Match `[^>]*>`: consume the characters before the first `>` (returned
first) and the `>` itself, returning the remainder; `none` if no `>`. -/
def takeUntilGt : List Char → Option (List Char × List Char)
  | [] => none
  | c :: rest =>
    if c = '>' then some ([], rest)
    else
      match takeUntilGt rest with
      | none => none
      | some (a, r) => some (c :: a, r)

/-- Match the closing tag `<\/h[1-3]>` at the head of the list; returns the
five matched characters and the remainder. -/
def matchCloseTag (l : List Char) : Option (List Char × List Char) :=
  match l with
  | a :: b :: c :: d :: e :: rest =>
    if a = '<' ∧ b = '/' ∧ isHchar c = true ∧ isDigit13 d = true ∧ e = '>' then
      some ([a, b, c, d, e], rest)
    else none
  | _ => none

/-- Match the lazy tail `.*?<\/h[1-3]>`: the shortest run of `.`-characters
followed by a closing tag.  Returns (run plus closing tag, remainder). -/
def findClose : List Char → Option (List Char × List Char)
  | [] => none
  | c :: rest =>
    match matchCloseTag (c :: rest) with
    | some (tag, r2) => some (tag, r2)
    | none =>
      if isDotChar c = true then
        match findClose rest with
        | none => none
        | some (b, r) => some (c :: b, r)
      else none

/-- Match the whole pattern `<h[1-3][^>]*>.*?<\/h[1-3]>` at the head of the
list; returns the matched text and the remainder. -/
def matchHeading (l : List Char) : Option (List Char × List Char) :=
  match l with
  | a :: b :: c :: rest =>
    if a = '<' ∧ isHchar b = true ∧ isDigit13 c = true then
      match takeUntilGt rest with
      | none => none
      | some (attrs, rest2) =>
        match findClose rest2 with
        | none => none
        | some (body, rest3) => some (a :: b :: c :: (attrs ++ '>' :: body), rest3)
    else none
  | _ => none

/-- `String.prototype.split` with a single capture group: scan left to right;
at each position emit the accumulated non-match (`acc`, reversed) and the
match, or push the character onto `acc`.  The trailing (possibly empty)
non-match is always emitted, as JavaScript does.  The `Nat` fuel only bounds
the recursion; one unit is spent per step and every step consumes at least one
input character, so `l.length` units always suffice. -/
def headingSplitFuel : Nat → List Char → List Char → List (List Char)
  | _, acc, [] => [acc.reverse]
  | 0, acc, l => [acc.reverse ++ l]
  | fuel + 1, acc, c :: rest =>
    match matchHeading (c :: rest) with
    | some (m, r2) => acc.reverse :: m :: headingSplitFuel fuel [] r2
    | none => headingSplitFuel fuel (c :: acc) rest

/-- `htmlContent.split(/(<h[1-3][^>]*>.*?<\/h[1-3]>)/gi)`. -/
def headingSplit (l : List Char) : List (List Char) :=
  headingSplitFuel l.length [] l

/-- The greedy packing loop of `splitIntoChunks` (server.js lines 82-99):
flush `currentChunk` whenever adding the next section would exceed
`maxChunkSize` and the buffer is non-empty; flush the final buffer if
non-empty. -/
def packChunks (maxChunkSize : Nat) : List (List Char) → List Char → List (List Char)
  | [], currentChunk =>
    if 0 < currentChunk.length then [currentChunk] else []
  | s :: rest, currentChunk =>
    if maxChunkSize < currentChunk.length + s.length ∧ 0 < currentChunk.length then
      currentChunk :: packChunks maxChunkSize rest s
    else
      packChunks maxChunkSize rest (currentChunk ++ s)

/-- The regex split and greedy packing of server.js lines 80-101: the body
of `splitIntoChunks` below the `new DOMParser()` statement, including the
one-chunk fallback for an empty packing.  In the program this code is dead —
see `splitIntoChunks`. -/
def splitIntoChunksBody (htmlContent : List Char) (maxChunkSize : Nat := 12000) :
    List (List Char) :=
  if (packChunks maxChunkSize (headingSplit htmlContent) []).isEmpty then
    [htmlContent]
  else
    packChunks maxChunkSize (headingSplit htmlContent) []

/-- The message of the `ReferenceError` raised by `new DOMParser()` under
Node, which the outer catch reports as `error.message`. -/
def domParserError : List Char := "DOMParser is not defined".toList

/-- `splitIntoChunks(htmlContent, maxChunkSize = 12000)` (server.js 75-102):
line 77 runs `const parser = new DOMParser()`, and Node provides no global
`DOMParser`, so every call raises `ReferenceError: DOMParser is not defined`
before the split on line 80 is reached — the function never returns
chunks. -/
def splitIntoChunks (htmlContent : List Char) (maxChunkSize : Nat := 12000) :
    Except (List Char) (List (List Char)) :=
  .error domParserError

/-! ### Structure lemmas for the regex match -/

theorem takeUntilGt_eq : ∀ {l a r : List Char},
    takeUntilGt l = some (a, r) → l = a ++ '>' :: r := by
  intro l
  induction l with
  | nil => intro a r h; simp [takeUntilGt] at h
  | cons c rest ih =>
    intro a r h
    by_cases hc : c = '>'
    · simp [takeUntilGt, hc] at h
      obtain ⟨ha, hr⟩ := h
      subst ha; subst hr; simp [hc]
    · simp [takeUntilGt, hc] at h
      cases htu : takeUntilGt rest with
      | none => rw [htu] at h; simp at h
      | some p =>
        obtain ⟨a0, r0⟩ := p
        rw [htu] at h
        simp at h
        obtain ⟨ha, hr⟩ := h
        subst ha; subst hr
        simpa using ih htu

theorem matchCloseTag_eq {l tag r : List Char}
    (h : matchCloseTag l = some (tag, r)) : l = tag ++ r ∧ 0 < tag.length := by
  match l with
  | [] => simp [matchCloseTag] at h
  | [a] => simp [matchCloseTag] at h
  | [a, b] => simp [matchCloseTag] at h
  | [a, b, c] => simp [matchCloseTag] at h
  | [a, b, c, d] => simp [matchCloseTag] at h
  | a :: b :: c :: d :: e :: rest =>
    simp only [matchCloseTag] at h
    split at h
    · simp at h
      obtain ⟨htag, hr⟩ := h
      subst htag; subst hr
      simp
    · simp at h

theorem findClose_eq : ∀ {l b r : List Char},
    findClose l = some (b, r) → l = b ++ r ∧ 0 < b.length := by
  intro l
  induction l with
  | nil => intro b r h; simp [findClose] at h
  | cons c rest ih =>
    intro b r h
    cases hmc : matchCloseTag (c :: rest) with
    | some p =>
      obtain ⟨tag, r2⟩ := p
      simp only [findClose, hmc] at h
      simp at h
      obtain ⟨hb, hr⟩ := h
      subst hb; subst hr
      exact matchCloseTag_eq hmc
    | none =>
      by_cases hdot : isDotChar c = true
      · cases hfc : findClose rest with
        | none =>
          simp only [findClose, hmc, hfc, hdot, if_true] at h
          simp at h
        | some p =>
          obtain ⟨b0, r0⟩ := p
          simp only [findClose, hmc, hfc, hdot, if_true] at h
          simp at h
          obtain ⟨hb, hr⟩ := h
          subst hb; subst hr
          obtain ⟨he, _⟩ := ih hfc
          constructor
          · simp [he]
          · simp
      · simp only [findClose, hmc] at h
        rw [if_neg hdot] at h
        simp at h

theorem matchHeading_eq : ∀ {l m r : List Char},
    matchHeading l = some (m, r) → l = m ++ r ∧ 0 < m.length := by
  intro l m r h
  match l with
  | [] => simp [matchHeading] at h
  | [a] => simp [matchHeading] at h
  | [a, b] => simp [matchHeading] at h
  | a :: b :: c :: rest =>
    simp only [matchHeading] at h
    split at h
    · cases htu : takeUntilGt rest with
      | none => rw [htu] at h; simp at h
      | some p =>
        obtain ⟨attrs, rest2⟩ := p
        rw [htu] at h
        simp only at h
        cases hfc : findClose rest2 with
        | none => rw [hfc] at h; simp at h
        | some q =>
          obtain ⟨body, rest3⟩ := q
          rw [hfc] at h
          simp at h
          obtain ⟨hm, hr⟩ := h
          subst hm; subst hr
          have h1 := takeUntilGt_eq htu
          have h2 := (findClose_eq hfc).1
          constructor
          · simp [h1, h2]
          · simp
    · simp at h

/-! ### Concatenation is preserved -/

theorem headingSplitFuel_flatten : ∀ (fuel : Nat) (acc l : List Char),
    (headingSplitFuel fuel acc l).flatten = acc.reverse ++ l := by
  intro fuel
  induction fuel with
  | zero =>
    intro acc l
    cases l with
    | nil => simp [headingSplitFuel]
    | cons c rest => simp [headingSplitFuel]
  | succ n ih =>
    intro acc l
    cases l with
    | nil => simp [headingSplitFuel]
    | cons c rest =>
      simp only [headingSplitFuel]
      cases hmh : matchHeading (c :: rest) with
      | some p =>
        obtain ⟨m, r2⟩ := p
        simp only [List.flatten]
        rw [ih [] r2]
        have := (matchHeading_eq hmh).1
        simp [this]
      | none =>
        rw [ih (c :: acc) rest]
        simp

theorem headingSplit_flatten (l : List Char) : (headingSplit l).flatten = l := by
  simpa using headingSplitFuel_flatten l.length [] l

theorem packChunks_flatten (maxChunkSize : Nat) :
    ∀ (sections : List (List Char)) (currentChunk : List Char),
    (packChunks maxChunkSize sections currentChunk).flatten =
      currentChunk ++ sections.flatten := by
  intro sections
  induction sections with
  | nil =>
    intro currentChunk
    by_cases h : 0 < currentChunk.length
    · simp [packChunks, h]
    · simp only [packChunks, if_neg h]
      have : currentChunk = [] := by
        cases currentChunk with
        | nil => rfl
        | cons a t => simp at h
      simp [this]
  | cons s rest ih =>
    intro currentChunk
    simp only [packChunks]
    split
    · simp [ih s]
    · simp [ih (currentChunk ++ s)]

/-- Claim C1 (code bug): the claimed concatenation property holds of the
splitter written at server.js lines 80-101 (`splitIntoChunksBody`) — for
every input and every positive `maxSize`, concatenating its chunks in order
reproduces the input — but the shipped function never returns chunks: the
`new DOMParser()` statement on line 77 raises a `ReferenceError` on every
call. -/
theorem splitIntoChunks_throws_intended_flatten (content : List Char)
    (maxSize : Nat) (hpos : 0 < maxSize) :
    splitIntoChunks content maxSize = .error domParserError ∧
    (splitIntoChunksBody content maxSize).flatten = content := by
  refine ⟨rfl, ?_⟩
  unfold splitIntoChunksBody
  split
  · simp
  · rw [packChunks_flatten, headingSplit_flatten]
    rfl

/-- Witness for C1 at a concrete input. -/
theorem splitIntoChunks_throws_intended_flatten_witness :
    splitIntoChunks "a<h1>b</h1>c".toList 5 = .error domParserError ∧
    (splitIntoChunksBody "a<h1>b</h1>c".toList 5).flatten =
      "a<h1>b</h1>c".toList :=
  splitIntoChunks_throws_intended_flatten "a<h1>b</h1>c".toList 5 (by decide)

/-! ### Oversized chunks are single heading-delimited pieces (C5) -/

theorem packChunks_oversize (maxChunkSize : Nat) (pieces : List (List Char)) :
    ∀ (sections : List (List Char)) (currentChunk : List Char),
    (∀ s ∈ sections, s ∈ pieces) →
    (maxChunkSize < currentChunk.length → currentChunk ∈ pieces) →
    ∀ chunk ∈ packChunks maxChunkSize sections currentChunk,
      maxChunkSize < chunk.length → chunk ∈ pieces := by
  intro sections
  induction sections with
  | nil =>
    intro currentChunk _ hcur chunk hchunk hbig
    simp only [packChunks] at hchunk
    split at hchunk
    · simp at hchunk
      subst hchunk
      exact hcur hbig
    · simp at hchunk
  | cons s rest ih =>
    intro currentChunk hsec hcur chunk hchunk hbig
    simp only [packChunks] at hchunk
    split at hchunk
    · rename_i hflush
      simp at hchunk
      rcases hchunk with hchunk | hchunk
      · subst hchunk
        exact hcur hbig
      · refine ih s (fun t ht => hsec t (List.mem_cons_of_mem s ht)) ?_ chunk hchunk hbig
        intro _
        exact hsec s (List.mem_cons_self s rest)
    · rename_i hnoflush
      refine ih (currentChunk ++ s) (fun t ht => hsec t (List.mem_cons_of_mem s ht))
        ?_ chunk hchunk hbig
      intro hlen
      rw [not_and_or] at hnoflush
      rcases hnoflush with h1 | h2
      · exfalso
        apply h1
        simpa using hlen
      · have : currentChunk = [] := by
          cases currentChunk with
          | nil => rfl
          | cons a t => simp at h2
        rw [this]
        simpa using hsec s (List.mem_cons_self s rest)

/-- Claim C5 (code bug): the claimed oversize property holds of the splitter
written at server.js lines 80-101 (`splitIntoChunksBody`) — every chunk
whose length exceeds `maxSize` is a single piece of the heading split, which
therefore alone exceeds `maxSize` — but the shipped function never returns
chunks: the `new DOMParser()` statement on line 77 raises a `ReferenceError`
on every call. -/
theorem splitIntoChunks_throws_intended_oversize (content : List Char)
    (maxSize : Nat) (chunk : List Char)
    (hmem : chunk ∈ splitIntoChunksBody content maxSize)
    (hbig : maxSize < chunk.length) :
    splitIntoChunks content maxSize = .error domParserError ∧
    chunk ∈ headingSplit content := by
  refine ⟨rfl, ?_⟩
  unfold splitIntoChunksBody at hmem
  split at hmem
  · rename_i hempty
    simp at hmem
    have hjoin : content = [] := by
      have h2 := packChunks_flatten maxSize (headingSplit content) []
      rw [List.isEmpty_iff.mp hempty] at h2
      simp only [List.flatten] at h2
      rw [headingSplit_flatten] at h2
      simpa using h2.symm
    rw [hmem, hjoin] at hbig
    simp at hbig
  · exact packChunks_oversize maxSize (headingSplit content) (headingSplit content) []
      (fun s hs => hs) (by intro h; simp at h) chunk hmem hbig

/-- Witness for C5: with `maxSize = 2` the single heading-free section
`"abcd"` would be returned whole as a piece of the heading split. -/
theorem splitIntoChunks_throws_intended_oversize_witness :
    splitIntoChunks "abcd".toList 2 = .error domParserError ∧
    "abcd".toList ∈ headingSplit "abcd".toList :=
  splitIntoChunks_throws_intended_oversize "abcd".toList 2 "abcd".toList
    (by decide) (by decide)


/-! ### Symbolic evaluation of the heading split

Large contents (the chunked path needs more than 20000 characters) cannot be
evaluated by kernel reduction, so the split is computed through the following
lemmas instead: a heading-free block is skipped wholesale, and a heading is
consumed in one step. -/

theorem matchHeading_none_of_ne {c : Char} (hc : ¬ c = '<') (rest : List Char) :
    matchHeading (c :: rest) = none := by
  match rest with
  | [] => simp [matchHeading]
  | [b] => simp [matchHeading]
  | b :: d :: t =>
    simp only [matchHeading]
    rw [if_neg]
    intro hand
    exact hc hand.1

theorem headingSplitFuel_nil (fuel : Nat) (acc : List Char) :
    headingSplitFuel fuel acc [] = [acc.reverse] := by
  cases fuel <;> rfl

theorem headingSplitFuel_match {c : Char} {rest m r2 : List Char}
    (h : matchHeading (c :: rest) = some (m, r2)) (fuel : Nat) (acc : List Char) :
    headingSplitFuel (fuel + 1) acc (c :: rest) =
      acc.reverse :: m :: headingSplitFuel fuel [] r2 := by
  simp [headingSplitFuel, h]

theorem headingSplitFuel_skip : ∀ (A : List Char) (fuel n : Nat)
    (acc l : List Char), (∀ c ∈ A, ¬ c = '<') → n = A.length + fuel →
    headingSplitFuel n acc (A ++ l) = headingSplitFuel fuel (A.reverse ++ acc) l := by
  intro A
  induction A with
  | nil =>
    intro fuel n acc l _ hn
    simp at hn
    subst hn
    simp
  | cons a A2 ih =>
    intro fuel n acc l hfree hn
    subst hn
    have ha : ¬ a = '<' := hfree a (List.mem_cons_self a A2)
    have harith : (a :: A2).length + fuel = A2.length + fuel + 1 := by
      rw [List.length_cons]
      omega
    rw [harith]
    have hstep : headingSplitFuel (A2.length + fuel + 1) acc ((a :: A2) ++ l) =
        headingSplitFuel (A2.length + fuel) (a :: acc) (A2 ++ l) := by
      simp [headingSplitFuel, matchHeading_none_of_ne ha]
    rw [hstep, ih fuel (A2.length + fuel) (a :: acc) l
      (fun c hc => hfree c (List.mem_cons_of_mem a hc)) rfl]
    simp

theorem replicate_free (n : Nat) (x : Char) (hx : ¬ x = '<') :
    ∀ c ∈ List.replicate n x, ¬ c = '<' := by
  intro c hc
  rw [List.eq_of_mem_replicate hc]
  exact hx

/-- A heading of the concrete shape used in the test contents, with an
arbitrary tail. -/
theorem matchHeading_h1 (l : List Char) :
    matchHeading ('<' :: 'h' :: '1' :: '>' :: 's' :: '<' :: '/' :: 'h' :: '1' :: '>' :: l) =
      some ("<h1>s</h1>".toList, l) := by
  simp [matchHeading, takeUntilGt, findClose, matchCloseTag, isHchar, isDigit13, isDotChar]

theorem matchHeading_h2 (l : List Char) :
    matchHeading ('<' :: 'h' :: '2' :: '>' :: 't' :: '<' :: '/' :: 'h' :: '2' :: '>' :: l) =
      some ("<h2>t</h2>".toList, l) := by
  simp [matchHeading, takeUntilGt, findClose, matchCloseTag, isHchar, isDigit13, isDotChar]

/-- 27020-character content used against claim C3: three 9000-character
sections separated by two headings. -/
def c3content : List Char :=
  List.replicate 9000 'a' ++ "<h1>s</h1>".toList ++ List.replicate 9000 'b' ++
    "<h2>t</h2>".toList ++ List.replicate 9000 'c'

theorem c3content_length : c3content.length = 27020 := by
  unfold c3content
  rw [List.length_append, List.length_append, List.length_append, List.length_append,
    List.length_replicate, List.length_replicate, List.length_replicate]
  decide

theorem headingSplit_c3 : headingSplit c3content =
    [List.replicate 9000 'a', "<h1>s</h1>".toList, List.replicate 9000 'b',
     "<h2>t</h2>".toList, List.replicate 9000 'c'] := by
  unfold headingSplit
  rw [c3content_length]
  unfold c3content
  rw [List.append_assoc, List.append_assoc, List.append_assoc]
  rw [headingSplitFuel_skip (List.replicate 9000 'a') 18020 27020 [] _
    (replicate_free 9000 'a' (by decide)) (by rw [List.length_replicate])]
  have e1 : "<h1>s</h1>".toList ++ (List.replicate 9000 'b' ++
      ("<h2>t</h2>".toList ++ List.replicate 9000 'c')) =
      '<' :: 'h' :: '1' :: '>' :: 's' :: '<' :: '/' :: 'h' :: '1' :: '>' ::
        (List.replicate 9000 'b' ++ ("<h2>t</h2>".toList ++ List.replicate 9000 'c')) := rfl
  rw [e1]
  rw [show (18020 : Nat) = 18019 + 1 from rfl]
  rw [headingSplitFuel_match (matchHeading_h1 _) 18019]
  rw [headingSplitFuel_skip (List.replicate 9000 'b') 9019 18019 [] _
    (replicate_free 9000 'b' (by decide)) (by rw [List.length_replicate])]
  have e2 : "<h2>t</h2>".toList ++ List.replicate 9000 'c' =
      '<' :: 'h' :: '2' :: '>' :: 't' :: '<' :: '/' :: 'h' :: '2' :: '>' ::
        List.replicate 9000 'c' := rfl
  rw [e2]
  rw [show (9019 : Nat) = 9018 + 1 from rfl]
  rw [headingSplitFuel_match (matchHeading_h2 _) 9018]
  rw [show List.replicate 9000 'c' = List.replicate 9000 'c' ++ ([] : List Char) from
    (List.append_nil _).symm]
  rw [headingSplitFuel_skip (List.replicate 9000 'c') 18 9018 [] []
    (replicate_free 9000 'c' (by decide)) (by rw [List.length_replicate])]
  rw [headingSplitFuel_nil]
  simp [-List.reduceReplicate]

/-! Step lemmas used to evaluate `packChunks` on concrete section lists
whose elements are too large for kernel reduction. -/

theorem packChunks_step_flush {maxChunkSize : Nat} {s currentChunk : List Char}
    {rest : List (List Char)}
    (h : maxChunkSize < currentChunk.length + s.length ∧ 0 < currentChunk.length) :
    packChunks maxChunkSize (s :: rest) currentChunk =
      currentChunk :: packChunks maxChunkSize rest s := by
  simp only [packChunks]
  rw [if_pos h]

theorem packChunks_step_add {maxChunkSize : Nat} {s currentChunk : List Char}
    {rest : List (List Char)}
    (h : ¬ (maxChunkSize < currentChunk.length + s.length ∧ 0 < currentChunk.length)) :
    packChunks maxChunkSize (s :: rest) currentChunk =
      packChunks maxChunkSize rest (currentChunk ++ s) := by
  simp only [packChunks]
  rw [if_neg h]

theorem packChunks_nil_pos {maxChunkSize : Nat} {currentChunk : List Char}
    (h : 0 < currentChunk.length) :
    packChunks maxChunkSize [] currentChunk = [currentChunk] := by
  simp only [packChunks]
  rw [if_pos h]

theorem packChunks_c3_12000 : packChunks 12000 (headingSplit c3content) [] =
    [List.replicate 9000 'a' ++ "<h1>s</h1>".toList,
     List.replicate 9000 'b' ++ "<h2>t</h2>".toList,
     List.replicate 9000 'c'] := by
  rw [headingSplit_c3]
  rw [packChunks_step_add (by
    rw [List.length_nil, List.length_replicate]
    decide)]
  rw [List.nil_append]
  rw [packChunks_step_add (by
    rw [List.length_replicate]
    decide)]
  rw [packChunks_step_flush (by
    rw [List.length_append, List.length_replicate, List.length_replicate]
    decide)]
  rw [packChunks_step_add (by
    rw [List.length_replicate]
    decide)]
  rw [packChunks_step_flush (by
    rw [List.length_append, List.length_replicate, List.length_replicate]
    decide)]
  rw [packChunks_nil_pos (by
    rw [List.length_replicate]
    decide)]

theorem splitIntoChunksBody_c3_12000 : splitIntoChunksBody c3content 12000 =
    [List.replicate 9000 'a' ++ "<h1>s</h1>".toList,
     List.replicate 9000 'b' ++ "<h2>t</h2>".toList,
     List.replicate 9000 'c'] := by
  unfold splitIntoChunksBody
  rw [packChunks_c3_12000]
  rfl

theorem packChunks_c3_20000 : packChunks 20000 (headingSplit c3content) [] =
    [((List.replicate 9000 'a' ++ "<h1>s</h1>".toList) ++ List.replicate 9000 'b') ++
       "<h2>t</h2>".toList,
     List.replicate 9000 'c'] := by
  rw [headingSplit_c3]
  rw [packChunks_step_add (by
    rw [List.length_nil, List.length_replicate]
    decide)]
  rw [List.nil_append]
  rw [packChunks_step_add (by
    rw [List.length_replicate]
    decide)]
  rw [packChunks_step_add (by
    rw [List.length_append, List.length_replicate, List.length_replicate]
    decide)]
  rw [packChunks_step_add (by
    rw [List.length_append, List.length_append, List.length_replicate,
      List.length_replicate]
    decide)]
  rw [packChunks_step_flush (by
    rw [List.length_append, List.length_append, List.length_append,
      List.length_replicate, List.length_replicate, List.length_replicate]
    decide)]
  rw [packChunks_nil_pos (by
    rw [List.length_replicate]
    decide)]

theorem splitIntoChunksBody_c3_20000 : splitIntoChunksBody c3content 20000 =
    [((List.replicate 9000 'a' ++ "<h1>s</h1>".toList) ++ List.replicate 9000 'b') ++
       "<h2>t</h2>".toList,
     List.replicate 9000 'c'] := by
  unfold splitIntoChunksBody
  rw [packChunks_c3_20000]
  rfl


/-! ## Post-processing (server.js lines 370-374)

`finalContent.replace(/```html\\s*/g, '').replace(/```\\s*/g, '').trim()`. -/

/-- Characters matched by `\\s` in a JavaScript regex: the ASCII whitespace
characters, the no-break space, the Ogham space mark, the en-quad through
hair-space range, the line and paragraph separators, the narrow no-break
space, the medium mathematical space, the ideographic space and the
byte-order mark. -/
def wsChar (c : Char) : Bool :=
  c = ' ' || c = '\t' || c = '\n' || c = '\r' || c = '\x0b' || c = '\x0c' ||
    c = '\u00a0' || c = '\u1680' || ('\u2000' ≤ c && c ≤ '\u200a') ||
    c = '\u2028' || c = '\u2029' || c = '\u202f' || c = '\u205f' ||
    c = '\u3000' || c = '\ufeff'

/-- One global `String.prototype.replace` pass with a pattern made of the
literal `pat` followed by a whitespace run, replaced by the empty string:
scan left to right, delete every occurrence of `pat` together with the
whitespace run following it, and continue after the deleted text.  One unit
of fuel is spent per step; a step consumes at least one character whenever
`pat` is non-empty, so `l.length` units suffice. -/
def stripPatFuel (pat : List Char) : Nat → List Char → List Char
  | _, [] => []
  | 0, l => l
  | fuel + 1, c :: rest =>
    if pat.isPrefixOf (c :: rest) then
      stripPatFuel pat fuel (List.dropWhile wsChar ((c :: rest).drop pat.length))
    else
      c :: stripPatFuel pat fuel rest

def stripPat (pat l : List Char) : List Char := stripPatFuel pat l.length l

/-- `String.prototype.trim`: drop whitespace from both ends. -/
def trimChars (l : List Char) : List Char :=
  ((l.dropWhile wsChar).reverse.dropWhile wsChar).reverse

/-- The markdown-artifact cleanup applied to the assembled content
(server.js lines 371-374). -/
def cleanContent (l : List Char) : List Char :=
  trimChars (stripPat "```".toList (stripPat "```html".toList l))

/-! ## Stage 3: rewrite (server.js lines 263-368)

LLM outcomes are oracles: `rewriteSingle` is the single-pass call (an
exception there propagates to the outer catch), `rewriteChunk i` is the call
for chunk `i` (`none` meaning the call threw and the catch at lines 362-366
substitutes the original chunk), and `deadline i` is the value of
`Date.now() - startTime > TIMEOUT_MS` observed at the top of iteration `i`.
On the over-threshold path the `splitIntoChunks` call at line 314 throws
before the loop, so the chunk loop and its oracles are dead code in the
program. -/

/-- The chunk loop (server.js lines 317-367), embedded as written.  Returns
the accumulated `finalContent`, the number of `claudeCalls++` increments
executed, and the number of `anthropic.messages.create` calls attempted.
In the program the loop never runs: the `splitIntoChunks` call that would
feed it throws first. -/
def chunkLoop (llm : Nat → Option (List Char)) (deadline : Nat → Bool) :
    List (List Char) → Nat → List Char × Nat × Nat
  | [], _ => ([], 0, 0)
  | chunk :: rest, i =>
    if deadline i then ((chunk :: rest).flatten, 0, 0)
    else
      match llm i with
      | some txt =>
        let r := chunkLoop llm deadline rest (i + 1)
        (txt ++ r.1, r.2.1 + 1, r.2.2 + 1)
      | none =>
        let r := chunkLoop llm deadline rest (i + 1)
        (chunk ++ r.1, r.2.1, r.2.2 + 1)

/-- Stage 3 before cleanup: single pass for content of at most 20000
characters; otherwise the code calls `splitIntoChunks(blogContent, 12000)`
(line 314), whose raised `ReferenceError` propagates to the outer catch —
the chunk loop below that call never runs.  Returns (content or propagated
error, `claudeCalls` increments, rewrite calls attempted). -/
def stage3 (content : List Char) (single : Except (List Char) (List Char))
    (llm : Nat → Option (List Char)) (deadline : Nat → Bool) :
    Except (List Char) (List Char) × Nat × Nat :=
  if content.length ≤ 20000 then
    match single with
    | .error e => (.error e, 0, 1)
    | .ok txt => (.ok txt, 1, 1)
  else
    match splitIntoChunks content 12000 with
    | .error e => (.error e, 0, 0)
    | .ok chunks =>
      let r := chunkLoop llm deadline chunks 0
      (.ok r.1, r.2.1, r.2.2)

/-! ## Stage 1: query generation (server.js lines 134-190) -/

/-- Outcome of the query-planning LLM call: the `messages.create` call threw
(`callFailed`, nothing incremented), the call returned but `JSON.parse` or
`slice` threw (`parseFailed`, `claudeCalls` already incremented), or the
response parsed to an array (`parsed qs`). -/
inductive PlanOutcome where
  | callFailed
  | parseFailed
  | parsed (qs : List (List Char))

/-- The deterministic fallback query set (server.js lines 182-188). -/
def fallbackQueries (title : List Char) : List (List Char) :=
  [title ++ " pricing 2025".toList,
   title ++ " features comparison".toList,
   title ++ " review alternatives".toList,
   "LinkedIn automation limits 2025".toList,
   "LinkedIn outreach best practices".toList]

/-- Stage 1: the resulting `searchQueries` plus the `claudeCalls` delta.  On
the parsed path the array is truncated with `slice(0, 8)`. -/
def stage1 (plan : PlanOutcome) (title : List Char) : List (List Char) × Nat :=
  match plan with
  | .callFailed => (fallbackQueries title, 0)
  | .parseFailed => (fallbackQueries title, 1)
  | .parsed qs => (qs.take 8, 1)

/-! ## Stage 2: Brave searches (server.js lines 196-261) -/

/-- The search loop over `queries.length` queries starting at index `i`:
`search i = true` models a non-error response (both counters incremented),
`false` models an error status or a thrown fetch error (skipped).  The loop
breaks at the first iteration whose deadline check fires.  Returns
(`searchesUsed`, `successfulSearches`, fetches attempted). -/
def searchLoop (search : Nat → Bool) (deadline : Nat → Bool) :
    Nat → Nat → Nat × Nat × Nat
  | 0, _ => (0, 0, 0)
  | n + 1, i =>
    if deadline i then (0, 0, 0)
    else
      let r := searchLoop search deadline n (i + 1)
      if search i then (r.1 + 1, r.2.1 + 1, r.2.2 + 1) else (r.1, r.2.1, r.2.2 + 1)

/-! ## The `POST /api/analyze` handler (server.js lines 105-413) -/

/-- The request body fields used by the handler; `none` models an absent
field and the JavaScript truthiness test treats `none` and the empty string
alike. -/
structure AnalyzeRequest where
  blogContent : Option (List Char)
  title : List Char
  anthropicKey : Option (List Char)
  braveKey : Option (List Char)

def isFalsy : Option (List Char) → Bool
  | none => true
  | some s => s.isEmpty

/-- Outcomes of all outbound calls and of every deadline check site, one
request's worth. -/
structure Oracles where
  plan : PlanOutcome
  stage1Deadline : Bool
  search : Nat → Bool
  searchDeadline : Nat → Bool
  stage2Deadline : Bool
  rewriteSingle : Except (List Char) (List Char)
  rewriteChunk : Nat → Option (List Char)
  chunkDeadline : Nat → Bool

/-- The HTTP response: `badRequest` is the 400 branch, `failure` the 500
branch of the outer catch, and `success` the 200 JSON body (content, changes,
searchesUsed, claudeCalls, sectionsUpdated; the duration field is wall-clock
time and is not modelled). -/
inductive AnalyzeResult where
  | badRequest (error : List Char)
  | failure (error : List Char)
  | success (content : List Char) (changes : List (List Char))
      (searchesUsed claudeCalls sectionsUpdated : Nat)

/-- Counts of outbound calls attempted during the request (side effects). -/
structure Attempts where
  searchCalls : Nat
  llmCalls : Nat

def natChars (n : Nat) : List Char := (Nat.repr n).toList

/-- The `changes` array (server.js lines 376-383). -/
def changesList (successfulSearches claudeCalls contentLength : Nat) :
    List (List Char) :=
  ["🔍 ".toList ++ natChars successfulSearches ++ " Brave searches completed".toList,
   "📝 ".toList ++ natChars claudeCalls ++ " Claude rewrites (".toList ++
     (if 20000 < contentLength then "chunked processing".toList
      else "single pass".toList) ++ ")".toList,
   "✅ Full blog analyzed (".toList ++ natChars contentLength ++ " chars)".toList,
   "✅ All pricing/features verified".toList,
   "✅ All factual errors corrected".toList,
   "✅ Writing standards applied".toList]

/-- The handler body: validation, Stage 1 with fallback, the Stage-1 timeout
check, the search loop, the zero-success check, the Stage-2 timeout check,
Stage 3, cleanup, and response assembly with
`sectionsUpdated: changes.length`. -/
def analyzeHandler (req : AnalyzeRequest) (o : Oracles) : AnalyzeResult × Attempts :=
  if isFalsy req.blogContent || isFalsy req.anthropicKey || isFalsy req.braveKey then
    (.badRequest "Missing required fields".toList, ⟨0, 0⟩)
  else
    let blogContent := req.blogContent.getD []
    let s1 := stage1 o.plan req.title
    if o.stage1Deadline then (.failure "Timeout at Stage 1".toList, ⟨0, 1⟩)
    else
      let s2 := searchLoop o.search o.searchDeadline s1.1.length 0
      if s2.2.1 = 0 then
        (.failure "All Brave searches failed. Check API key.".toList, ⟨s2.2.2, 1⟩)
      else if o.stage2Deadline then
        (.failure "Timeout at Stage 2".toList, ⟨s2.2.2, 1⟩)
      else
        let s3 := stage3 blogContent o.rewriteSingle o.rewriteChunk o.chunkDeadline
        match s3.1 with
        | .error e => (.failure e, ⟨s2.2.2, 1 + s3.2.2⟩)
        | .ok raw =>
          let finalContent := cleanContent raw
          let changes := changesList s2.2.1 (s1.2 + s3.2.1) blogContent.length
          (.success finalContent changes s2.1 (s1.2 + s3.2.1) changes.length,
           ⟨s2.2.2, 1 + s3.2.2⟩)


/-! ## Loop lemmas -/

theorem searchLoop_used_eq_succ (search deadline : Nat → Bool) :
    ∀ (n i : Nat), (searchLoop search deadline n i).1 =
      (searchLoop search deadline n i).2.1 := by
  intro n
  induction n with
  | zero => intro i; rfl
  | succ m ih =>
    intro i
    simp only [searchLoop]
    split
    · rfl
    · split
      · simp [ih (i + 1)]
      · simp [ih (i + 1)]

theorem searchLoop_allFail (search deadline : Nat → Bool)
    (hs : ∀ i, search i = false) :
    ∀ (n i : Nat), (searchLoop search deadline n i).2.1 = 0 := by
  intro n
  induction n with
  | zero => intro i; rfl
  | succ m ih =>
    intro i
    simp only [searchLoop]
    split
    · rfl
    · rw [hs i]
      simp [ih (i + 1)]

theorem chunkLoop_attempts (llm : Nat → Option (List Char)) (deadline : Nat → Bool) :
    ∀ (chunks : List (List Char)) (k : Nat),
    (∀ j, j < chunks.length → deadline (k + j) = false) →
    (chunkLoop llm deadline chunks k).2.2 = chunks.length := by
  intro chunks
  induction chunks with
  | nil => intro k _; rfl
  | cons c rest ih =>
    intro k hdl
    have h0 : deadline k = false := by simpa using hdl 0 (by simp)
    simp only [chunkLoop, h0]
    have hrec := ih (k + 1) (fun j hj => by
      have := hdl (j + 1) (by simpa using Nat.succ_lt_succ hj)
      simpa [Nat.add_assoc, Nat.add_comm 1 j] using this)
    cases hllm : llm k with
    | some txt => simp [hllm, hrec]
    | none => simp [hllm, hrec]

/-- The chunk-loop code increments `claudeCalls` only after the awaited call
returns (server.js line 348 sits below the `await`; the catch branch at
lines 362-366 skips it), so over the loop the counter delta equals the
number of attempted indices whose call returned successfully.  In the
program the loop is unreachable — `splitIntoChunks` throws first — so this
documents the loop code as written. -/
theorem chunkLoop_calls_counts_successes (llm : Nat → Option (List Char))
    (deadline : Nat → Bool) :
    ∀ (chunks : List (List Char)) (k : Nat),
    (chunkLoop llm deadline chunks k).2.1 =
      (List.range' k (chunkLoop llm deadline chunks k).2.2).countP
        (fun j => (llm j).isSome) := by
  intro chunks
  induction chunks with
  | nil => intro k; rfl
  | cons c rest ih =>
    intro k
    simp only [chunkLoop]
    split
    · rfl
    · cases hllm : llm k with
      | some txt =>
        have hrec := ih (k + 1)
        simp only [List.range', List.countP_cons, hllm]
        simp [hrec, hllm]
      | none =>
        have hrec := ih (k + 1)
        simp only [List.range', List.countP_cons, hllm]
        simp [hrec, hllm]

theorem chunkLoop_deadline_split (llm : Nat → Option (List Char))
    (deadline : Nat → Bool) :
    ∀ (i : Nat) (chunks : List (List Char)) (k : Nat),
    (∀ j, j < i → deadline (k + j) = false) → deadline (k + i) = true →
    i < chunks.length →
    chunkLoop llm deadline chunks k =
      ((chunkLoop llm deadline (chunks.take i) k).1 ++ (chunks.drop i).flatten,
       (chunkLoop llm deadline (chunks.take i) k).2.1,
       (chunkLoop llm deadline (chunks.take i) k).2.2) := by
  intro i
  induction i with
  | zero =>
    intro chunks k _ hi hlt
    cases chunks with
    | nil => simp at hlt
    | cons c rest =>
      simp only [Nat.add_zero] at hi
      simp [chunkLoop, hi]
  | succ m ih =>
    intro chunks k hbefore hi hlt
    cases chunks with
    | nil => simp at hlt
    | cons c rest =>
      have h0 : deadline k = false := by simpa using hbefore 0 (Nat.succ_pos m)
      have hbefore2 : ∀ j, j < m → deadline (k + 1 + j) = false := by
        intro j hj
        have := hbefore (j + 1) (Nat.succ_lt_succ hj)
        simpa [Nat.add_assoc, Nat.add_comm 1 j] using this
      have hi2 : deadline (k + 1 + m) = true := by
        have : k + 1 + m = k + (m + 1) := by omega
        rw [this]
        exact hi
      have hlt2 : m < rest.length := by simpa using Nat.lt_of_succ_lt_succ hlt
      have hrec := ih rest (k + 1) hbefore2 hi2 hlt2
      simp only [List.take_succ_cons, List.drop_succ_cons, chunkLoop, h0]
      cases hllm : llm k with
      | some txt => simp [hllm, hrec]
      | none => simp [hllm, hrec]

theorem chunkLoop_failed_chunk (llm : Nat → Option (List Char))
    (deadline : Nat → Bool) :
    ∀ (i : Nat) (chunks : List (List Char)) (k : Nat), i < chunks.length →
    (∀ j, j < chunks.length → deadline (k + j) = false) →
    llm (k + i) = none →
    (chunkLoop llm deadline chunks k).1 =
      (chunkLoop llm deadline (chunks.take i) k).1 ++ chunks.getD i [] ++
        (chunkLoop llm deadline (chunks.drop (i + 1)) (k + i + 1)).1 := by
  intro i
  induction i with
  | zero =>
    intro chunks k hlt hdl hfail
    cases chunks with
    | nil => simp at hlt
    | cons c rest =>
      have h0 : deadline k = false := by simpa using hdl 0 (by simp)
      simp only [Nat.add_zero] at hfail
      simp [chunkLoop, h0, hfail]
  | succ m ih =>
    intro chunks k hlt hdl hfail
    cases chunks with
    | nil => simp at hlt
    | cons c rest =>
      have h0 : deadline k = false := by simpa using hdl 0 (by simp)
      have hdl2 : ∀ j, j < rest.length → deadline (k + 1 + j) = false := by
        intro j hj
        have := hdl (j + 1) (by simpa using Nat.succ_lt_succ hj)
        simpa [Nat.add_assoc, Nat.add_comm 1 j] using this
      have hfail2 : llm (k + 1 + m) = none := by
        have : k + 1 + m = k + (m + 1) := by omega
        rw [this]
        exact hfail
      have hlt2 : m < rest.length := by simpa using Nat.lt_of_succ_lt_succ hlt
      have hrec := ih rest (k + 1) hlt2 hdl2 hfail2
      have hidx : k + 1 + m + 1 = k + (m + 1) + 1 := by omega
      rw [hidx] at hrec
      simp only [List.take_succ_cons, List.drop_succ_cons, chunkLoop, h0]
      cases hllm : llm k with
      | some txt => simp [hllm, hrec]
      | none => simp [hllm, hrec]


/-! ## Claims about the handler and its stages -/

/-- A content without any `<` has no heading match anywhere: the split is the
whole input, matching the one-chunk fallback of the splitter code. -/
theorem headingSplit_free (l : List Char) (h : ∀ c ∈ l, ¬ c = '<') :
    headingSplit l = [l] := by
  unfold headingSplit
  have hs := headingSplitFuel_skip l 0 l.length [] [] h (by omega)
  simp only [List.append_nil] at hs
  rw [hs, headingSplitFuel_nil]
  simp

/-- Stage 3 on the over-threshold path: the `splitIntoChunks` call throws,
so the stage propagates the `ReferenceError` with no rewrite call attempted
and no counter increment. -/
theorem stage3_chunked (content : List Char) (single : Except (List Char) (List Char))
    (llm : Nat → Option (List Char)) (deadline : Nat → Bool)
    (h : ¬ content.length ≤ 20000) :
    stage3 content single llm deadline = (.error domParserError, 0, 0) := by
  unfold stage3
  rw [if_neg h]
  rfl

/-- Claim C4 (counterexample): on the single-pass path the rewrite call is
attempted — the stage records one attempt and its failure aborts the request
with the 500 branch — yet the `claudeCalls` increment at server.js line 303,
which sits after the awaited call, is skipped: the counter delta is 0, not
the 1 the claim requires for an attempted call. -/
theorem claudeCalls_skips_failed_attempt :
    ("a".toList).length ≤ 20000 ∧
    (stage3 "a".toList (.error "Connection error.".toList) (fun _ => none)
      (fun _ => false)).2.2 = 1 ∧
    (stage3 "a".toList (.error "Connection error.".toList) (fun _ => none)
      (fun _ => false)).2.1 = 0 ∧
    (analyzeHandler ⟨some "a".toList, "T".toList, some "k".toList, some "b".toList⟩
      ⟨.parsed [['q']], false, fun _ => true, fun _ => false, false,
       .error "Connection error.".toList, fun _ => none, fun _ => false⟩).1 =
      .failure "Connection error.".toList := by
  exact ⟨by decide, rfl, rfl, rfl⟩

/-- Claim C4 (amended): `claudeCalls` counts successful rewrite calls only.
On the single-pass path — the only rewrite path the program can reach —
exactly one call is attempted; the counter delta is 1 when it succeeds and 0
when the attempted call fails (the exception then propagates to the 500
branch).  The chunk-loop increment also sits after its awaited call, but
that loop is unreachable: `splitIntoChunks` throws before it. -/
theorem claudeCalls_only_counts_successes (content : List Char)
    (single : Except (List Char) (List Char)) (llm : Nat → Option (List Char))
    (deadline : Nat → Bool) (hle : content.length ≤ 20000) :
    (stage3 content single llm deadline).2.2 = 1 ∧
    (∀ txt, single = .ok txt → (stage3 content single llm deadline).2.1 = 1) ∧
    (∀ e, single = .error e → (stage3 content single llm deadline).2.1 = 0) := by
  unfold stage3
  rw [if_pos hle]
  cases single with
  | ok txt =>
    refine ⟨rfl, fun _ _ => rfl, fun e he => ?_⟩
    simp at he
  | error e =>
    refine ⟨rfl, fun txt ht => ?_, fun _ _ => rfl⟩
    simp at ht

/-- Witness for the amended C4: a successful single-pass call is counted. -/
theorem claudeCalls_only_counts_successes_witness :
    (stage3 "a".toList (.ok "y".toList) (fun _ => none) (fun _ => false)).2.1 = 1 :=
  (claudeCalls_only_counts_successes "a".toList (.ok "y".toList) (fun _ => none)
    (fun _ => false) (by decide)).2.1 "y".toList rfl

/-- Claim C3 (counterexample): for this 27020-character content the rewrite
stage attempts zero LLM calls and propagates the `DOMParser` error to the
500 branch; the Chunker invoked with the 20000 threshold returns no chunks
at all (it throws), and even the two-chunk answer of its dead splitter code
disagrees with the zero calls made. -/
theorem rewrite_calls_threshold_counterexample :
    20000 < c3content.length ∧
    stage3 c3content (.ok []) (fun _ => some ['R']) (fun _ => false) =
      (.error domParserError, 0, 0) ∧
    splitIntoChunks c3content 20000 = .error domParserError ∧
    (splitIntoChunksBody c3content 20000).length = 2 ∧
    ¬ (stage3 c3content (.ok []) (fun _ => some ['R']) (fun _ => false)).2.2 =
        (splitIntoChunksBody c3content 20000).length := by
  have hs3 := stage3_chunked c3content (.ok []) (fun _ => some ['R'])
    (fun _ => false) (by rw [c3content_length]; decide)
  have h2 : (splitIntoChunksBody c3content 20000).length = 2 := by
    rw [splitIntoChunksBody_c3_20000]
    rfl
  refine ⟨by rw [c3content_length]; decide, hs3, rfl, h2, ?_⟩
  rw [hs3, h2]
  decide

/-- Claim C3 (amended): content at or under the 20000-character threshold
gets exactly one rewrite LLM call; content over the threshold gets zero
rewrite LLM calls — the `splitIntoChunks` call at server.js line 314 throws
before any chunk call and the stage propagates the error to the 500 branch —
so the rewrite call count never equals a chunk count of the Chunker. -/
theorem rewrite_calls_match_chunker (content : List Char)
    (single : Except (List Char) (List Char)) (llm : Nat → Option (List Char))
    (deadline : Nat → Bool) :
    (content.length ≤ 20000 → (stage3 content single llm deadline).2.2 = 1) ∧
    (20000 < content.length →
      stage3 content single llm deadline = (.error domParserError, 0, 0)) := by
  constructor
  · intro hle
    unfold stage3
    rw [if_pos hle]
    cases single <;> rfl
  · intro hgt
    exact stage3_chunked content single llm deadline (by omega)

/-- Witness for the amended C3 at a concrete small content. -/
theorem rewrite_calls_match_chunker_witness :
    (stage3 "ab".toList (.ok []) (fun _ => none) (fun _ => false)).2.2 = 1 :=
  (rewrite_calls_match_chunker "ab".toList (.ok []) (fun _ => none)
    (fun _ => false)).1 (by decide)

/-- Claim C7: once the deadline fires at iteration `i` of the chunk loop
(having been quiet before), the loop's result is the output of the first `i`
chunks followed by all remaining chunks unmodified in order, with exactly
`i` calls attempted — no further LLM calls are issued. -/
theorem chunkLoop_deadline_truncates (llm : Nat → Option (List Char))
    (deadline : Nat → Bool) (chunks : List (List Char)) (i : Nat)
    (hlt : i < chunks.length) (hbefore : ∀ j, j < i → deadline j = false)
    (hi : deadline i = true) :
    chunkLoop llm deadline chunks 0 =
      ((chunkLoop llm deadline (chunks.take i) 0).1 ++ (chunks.drop i).flatten,
       (chunkLoop llm deadline (chunks.take i) 0).2.1, i) := by
  have h := chunkLoop_deadline_split llm deadline i chunks 0
    (fun j hj => by simpa using hbefore j hj) (by simpa using hi) hlt
  rw [h]
  have hatt : (chunkLoop llm deadline (chunks.take i) 0).2.2 = i := by
    rw [chunkLoop_attempts llm deadline (chunks.take i) 0 (fun j hj => by
      rw [List.length_take] at hj
      simpa using hbefore j (lt_of_lt_of_le hj (min_le_left i chunks.length)))]
    rw [List.length_take]
    exact min_eq_left (le_of_lt hlt)
  rw [hatt]

/-- Witness for C7: three chunks, deadline firing from iteration 1 on. -/
theorem chunkLoop_deadline_truncates_witness :
    chunkLoop (fun _ => some ['X']) (fun j => decide (1 ≤ j)) [['a'], ['b'], ['c']] 0 =
      ((chunkLoop (fun _ => some ['X']) (fun j => decide (1 ≤ j))
          (([['a'], ['b'], ['c']] : List (List Char)).take 1) 0).1 ++
        (([['a'], ['b'], ['c']] : List (List Char)).drop 1).flatten,
       (chunkLoop (fun _ => some ['X']) (fun j => decide (1 ≤ j))
          (([['a'], ['b'], ['c']] : List (List Char)).take 1) 0).2.1, 1) :=
  chunkLoop_deadline_truncates (fun _ => some ['X']) (fun j => decide (1 ≤ j))
    [['a'], ['b'], ['c']] 1 (by decide)
    (fun j hj => decide_eq_false (Nat.not_le.mpr hj)) (by decide)

/-- Claim C8 (counterexample): if the planner's LLM response parses to a
valid empty JSON array, the query-planning stage produces zero queries — the
claimed lower bound of one query does not hold. -/
theorem stage1_empty_parsed_counterexample :
    (stage1 (.parsed []) "SalesRobot".toList).1 = [] ∧
    ¬ 1 ≤ (stage1 (.parsed []) "SalesRobot".toList).1.length := by
  constructor
  · rfl
  · decide

/-- Claim C8 (amended): the query-planning stage produces at most 8 queries
and at most the one already-attempted LLM call; on a call or parse failure
it deterministically returns the 5-query fallback set (always non-empty,
never failing); but a successfully parsed empty array yields zero queries,
so the lower bound of one holds only on the failure path, not always. -/
theorem stage1_bounds (plan : PlanOutcome) (title : List Char) :
    (stage1 plan title).1.length ≤ 8 ∧
    (stage1 plan title).2 ≤ 1 ∧
    (plan = .callFailed ∨ plan = .parseFailed →
      (stage1 plan title).1 = fallbackQueries title ∧ (stage1 plan title).2 ≤ 1) ∧
    (fallbackQueries title).length = 5 ∧
    (∀ qs, plan = .parsed qs → (stage1 plan title).1 = qs.take 8) := by
  cases plan with
  | callFailed =>
    refine ⟨by simp [stage1, fallbackQueries], by simp [stage1], ?_, rfl, ?_⟩
    · intro _
      exact ⟨rfl, by simp [stage1]⟩
    · intro qs hqs
      simp at hqs
  | parseFailed =>
    refine ⟨by simp [stage1, fallbackQueries], by simp [stage1], ?_, rfl, ?_⟩
    · intro _
      exact ⟨rfl, by simp [stage1]⟩
    · intro qs hqs
      simp at hqs
  | parsed qs =>
    refine ⟨?_, by simp [stage1], ?_, rfl, ?_⟩
    · show (qs.take 8).length ≤ 8
      rw [List.length_take]
      exact min_le_left 8 qs.length
    · intro hor
      rcases hor with h | h <;> simp at h
    · intro qs2 hqs
      simp only [PlanOutcome.parsed.injEq] at hqs
      subst hqs
      rfl

/-- Witness for the amended C8 on the failure path. -/
theorem stage1_bounds_witness :
    (stage1 .callFailed "X".toList).1 = fallbackQueries "X".toList ∧
    (stage1 .callFailed "X".toList).1.length ≤ 8 :=
  ⟨((stage1_bounds .callFailed "X".toList).2.2.1 (Or.inl rfl)).1,
   (stage1_bounds .callFailed "X".toList).1⟩

/-- Claim C9: a request whose `blogContent`, LLM credential or search
credential is missing or empty is rejected with the 400 `badRequest`
response before any outbound call: both attempt counters are zero. -/
theorem validation_rejects (req : AnalyzeRequest) (o : Oracles)
    (h : (isFalsy req.blogContent || isFalsy req.anthropicKey ||
      isFalsy req.braveKey) = true) :
    analyzeHandler req o = (.badRequest "Missing required fields".toList, ⟨0, 0⟩) := by
  unfold analyzeHandler
  rw [h]
  simp

/-- Witness for C9: missing `blogContent`. -/
theorem validation_rejects_witness :
    analyzeHandler ⟨none, "T".toList, some "k".toList, some "b".toList⟩
      ⟨.callFailed, false, fun _ => false, fun _ => false, false, .ok [],
       fun _ => none, fun _ => false⟩ =
      (.badRequest "Missing required fields".toList, ⟨0, 0⟩) :=
  validation_rejects _ _ rfl


/-- Claim C2: if the pipeline reaches the research stage (valid request, no
Stage-1 timeout) and every search request fails, the handler responds with
the distinguishable research-unavailable 500 error; and in general no 200
response ever carries `searchesUsed = 0`. -/
theorem allSearchesFail_yields_500 :
    (∀ (req : AnalyzeRequest) (o : Oracles),
      (isFalsy req.blogContent || isFalsy req.anthropicKey ||
        isFalsy req.braveKey) = false →
      o.stage1Deadline = false →
      (∀ i, o.search i = false) →
      (analyzeHandler req o).1 =
        .failure "All Brave searches failed. Check API key.".toList) ∧
    (∀ (req : AnalyzeRequest) (o : Oracles) (f : List Char)
      (ch : List (List Char)) (su cc sec : Nat) (a : Attempts),
      analyzeHandler req o = (.success f ch su cc sec, a) → 0 < su) := by
  constructor
  · intro req o hval h1 hs
    simp only [analyzeHandler, hval, h1, Bool.false_eq_true, if_false,
      searchLoop_allFail o.search o.searchDeadline hs]
    simp
  · intro req o f ch su cc sec a h
    simp only [analyzeHandler] at h
    split at h
    · exact absurd h (by simp)
    · split at h
      · exact absurd h (by simp)
      · split at h
        · exact absurd h (by simp)
        · split at h
          · exact absurd h (by simp)
          · rename_i hzero _
            split at h
            · exact absurd h (by simp)
            · simp only [Prod.mk.injEq, AnalyzeResult.success.injEq] at h
              obtain ⟨⟨_, _, hsu, _, _⟩, _⟩ := h
              rw [← hsu, searchLoop_used_eq_succ]
              exact Nat.pos_of_ne_zero hzero

/-- Witness for C2, first part, at a concrete request and oracle set. -/
theorem allSearchesFail_yields_500_witness :
    (analyzeHandler ⟨some "x".toList, "T".toList, some "k".toList, some "b".toList⟩
      ⟨.callFailed, false, fun _ => false, fun _ => false, false, .ok [],
       fun _ => none, fun _ => false⟩).1 =
      .failure "All Brave searches failed. Check API key.".toList :=
  allSearchesFail_yields_500.1
    ⟨some "x".toList, "T".toList, some "k".toList, some "b".toList⟩
    ⟨.callFailed, false, fun _ => false, fun _ => false, false, .ok [],
     fun _ => none, fun _ => false⟩ rfl rfl (fun _ => rfl)

/-- Claim C10: every 200 response has `sectionsUpdated` equal to the length
of the `changes` list, which is the fixed six-element template varying only
in the embedded counts and content length. -/
theorem success_sections_updated (req : AnalyzeRequest) (o : Oracles)
    (f : List Char) (ch : List (List Char)) (su cc sec : Nat) (a : Attempts)
    (h : analyzeHandler req o = (.success f ch su cc sec, a)) :
    sec = ch.length ∧ ch.length = 6 ∧
    ch = changesList su cc (req.blogContent.getD []).length := by
  simp only [analyzeHandler] at h
  split at h
  · exact absurd h (by simp)
  · split at h
    · exact absurd h (by simp)
    · split at h
      · exact absurd h (by simp)
      · split at h
        · exact absurd h (by simp)
        · split at h
          · exact absurd h (by simp)
          · simp only [Prod.mk.injEq, AnalyzeResult.success.injEq] at h
            obtain ⟨⟨_, hch, hsu, hcc, hsec⟩, _⟩ := h
            refine ⟨?_, ?_, ?_⟩
            · rw [← hsec, ← hch]
            · rw [← hch]
              rfl
            · rw [← hch, ← hcc, ← hsu, searchLoop_used_eq_succ]

/-- Witness for C10: a small successful end-to-end run. -/
theorem success_sections_updated_witness :
    6 = (changesList 1 2 1).length ∧ (changesList 1 2 1).length = 6 ∧
    changesList 1 2 1 = changesList 1 2 ("x".toList).length :=
  success_sections_updated
    ⟨some "x".toList, "T".toList, some "k".toList, some "b".toList⟩
    ⟨.parsed [['q']], false, fun _ => true, fun _ => false, false, .ok "y".toList,
     fun _ => none, fun _ => false⟩
    (cleanContent "y".toList) (changesList 1 2 1) 1 2 6 ⟨1, 2⟩ (by rfl)


/-! ## Symbolic evaluation of the post-processing -/

theorem stripPatFuel_nil (pat : List Char) (fuel : Nat) :
    stripPatFuel pat fuel [] = [] := by
  cases fuel <;> rfl

theorem stripPatFuel_keep {pat : List Char} {c : Char} {rest : List Char}
    (h : pat.isPrefixOf (c :: rest) = false) (fuel : Nat) :
    stripPatFuel pat (fuel + 1) (c :: rest) = c :: stripPatFuel pat fuel rest := by
  simp [stripPatFuel, h]

theorem stripPatFuel_matched {pat : List Char} {c : Char} {rest : List Char}
    (h : pat.isPrefixOf (c :: rest) = true) (fuel : Nat) :
    stripPatFuel pat (fuel + 1) (c :: rest) =
      stripPatFuel pat fuel (List.dropWhile wsChar ((c :: rest).drop pat.length)) := by
  simp [stripPatFuel, h]

theorem isPrefixOf_false_head {a b : Char} (as bs : List Char) (h : ¬ b = a) :
    List.isPrefixOf (a :: as) (b :: bs) = false := by
  simp [List.isPrefixOf]
  intro hab
  exact absurd hab.symm h

theorem stripPatFuel_skipBlock (p0 : Char) (pt : List Char) :
    ∀ (A : List Char) (fuel n : Nat) (l : List Char),
    (∀ c ∈ A, ¬ c = p0) → n = A.length + fuel →
    stripPatFuel (p0 :: pt) n (A ++ l) = A ++ stripPatFuel (p0 :: pt) fuel l := by
  intro A
  induction A with
  | nil =>
    intro fuel n l _ hn
    simp at hn
    subst hn
    simp
  | cons a A2 ih =>
    intro fuel n l hfree hn
    subst hn
    have ha : ¬ a = p0 := hfree a (List.mem_cons_self a A2)
    have harith : (a :: A2).length + fuel = A2.length + fuel + 1 := by
      rw [List.length_cons]
      omega
    rw [harith]
    show stripPatFuel (p0 :: pt) (A2.length + fuel + 1) (a :: (A2 ++ l)) = _
    rw [stripPatFuel_keep (isPrefixOf_false_head pt (A2 ++ l) ha) (A2.length + fuel)]
    rw [ih fuel (A2.length + fuel) l (fun c hc => hfree c (List.mem_cons_of_mem a hc)) rfl]
    rfl

/-- A replace pass whose pattern head occurs nowhere in the input leaves the
input unchanged. -/
theorem stripPat_id (p0 : Char) (pt l : List Char) (h : ∀ c ∈ l, ¬ c = p0) :
    stripPat (p0 :: pt) l = l := by
  unfold stripPat
  have hs := stripPatFuel_skipBlock p0 pt l 0 l.length [] h (by omega)
  simp only [List.append_nil] at hs
  rw [hs, stripPatFuel_nil]
  simp

theorem dropWhile_id {l : List Char} (h : ∀ c ∈ l, wsChar c = false) :
    List.dropWhile wsChar l = l := by
  cases l with
  | nil => rfl
  | cons c rest =>
    rw [List.dropWhile_cons, h c (List.mem_cons_self c rest)]
    simp

theorem trimChars_id (l : List Char) (h : ∀ c ∈ l, wsChar c = false) :
    trimChars l = l := by
  unfold trimChars
  rw [dropWhile_id h]
  rw [dropWhile_id (fun c hc => h c (List.mem_reverse.mp hc))]
  simp

/-- The whole markdown cleanup is the identity on content without backticks
or leading/trailing whitespace. -/
theorem cleanContent_id (l : List Char) (hb : ∀ c ∈ l, ¬ c = '`')
    (hw : ∀ c ∈ l, wsChar c = false) : cleanContent l = l := by
  unfold cleanContent
  rw [show "```html".toList = '`' :: ['`', '`', 'h', 't', 'm', 'l'] from rfl]
  rw [show "```".toList = '`' :: ['`', '`'] from rfl]
  rw [stripPat_id '`' _ l hb, stripPat_id '`' _ l hb, trimChars_id l hw]

/-- Generic evaluation of the handler on the over-threshold path: the
pipeline proceeds through planning and research, then dies in the
`splitIntoChunks` call, whose `ReferenceError` the outer catch reports as a
500; the only LLM call attempted is the planner's. -/
theorem analyzeHandler_chunked_fails (req : AnalyzeRequest) (o : Oracles)
    (content : List Char)
    (hcontent : req.blogContent.getD [] = content)
    (hval : (isFalsy req.blogContent || isFalsy req.anthropicKey ||
      isFalsy req.braveKey) = false)
    (h1 : o.stage1Deadline = false)
    (hsucc : ¬ (searchLoop o.search o.searchDeadline
      (stage1 o.plan req.title).1.length 0).2.1 = 0)
    (h2 : o.stage2Deadline = false)
    (hbig : ¬ content.length ≤ 20000) :
    analyzeHandler req o = (.failure domParserError,
      ⟨(searchLoop o.search o.searchDeadline
          (stage1 o.plan req.title).1.length 0).2.2, 1⟩) := by
  subst hcontent
  simp only [analyzeHandler, hval, h1, h2, Bool.false_eq_true, if_false]
  rw [if_neg hsucc]
  rw [stage3_chunked (req.blogContent.getD []) o.rewriteSingle o.rewriteChunk
    o.chunkDeadline hbig]
  rfl

/-- Claim C6 (amended): the chunked rewrite path never reaches a chunk
rewrite call, let alone a failing one: for any request whose content exceeds
20000 characters the `splitIntoChunks` call at server.js line 314 throws,
the outer catch turns the `ReferenceError` into a 500 response, and the only
LLM call attempted in the whole request is the planner's — the chunk-failure
fallback of lines 362-366, which would substitute the original chunk and
continue to a 200, is dead code. -/
theorem chunked_rewrite_unreachable (req : AnalyzeRequest) (o : Oracles)
    (content : List Char)
    (hcontent : req.blogContent.getD [] = content)
    (hval : (isFalsy req.blogContent || isFalsy req.anthropicKey ||
      isFalsy req.braveKey) = false)
    (h1 : o.stage1Deadline = false)
    (hsucc : ¬ (searchLoop o.search o.searchDeadline
      (stage1 o.plan req.title).1.length 0).2.1 = 0)
    (h2 : o.stage2Deadline = false)
    (hbig : ¬ content.length ≤ 20000) :
    (analyzeHandler req o).1 = .failure domParserError ∧
    (analyzeHandler req o).2.llmCalls = 1 := by
  have h := analyzeHandler_chunked_fails req o content hcontent hval h1 hsucc h2 hbig
  rw [h]
  exact ⟨rfl, rfl⟩

/-- Concrete request and oracles for the C6 witness: the 27020-character
content takes the chunked path; the oracles would make chunk 1's rewrite
call fail and the others succeed, but no chunk call is ever reached. -/
def c6wReq : AnalyzeRequest :=
  ⟨some c3content, "T".toList, some "k".toList, some "b".toList⟩

def c6wOracles : Oracles :=
  ⟨.parsed [['q']], false, fun _ => true, fun _ => false, false, .ok [],
   fun j => if j = 1 then none else some ['X'], fun _ => false⟩

/-- Witness for the amended C6 at a concrete chunked request. -/
theorem chunked_rewrite_unreachable_witness :
    (analyzeHandler c6wReq c6wOracles).1 = .failure domParserError ∧
    (analyzeHandler c6wReq c6wOracles).2.llmCalls = 1 :=
  chunked_rewrite_unreachable c6wReq c6wOracles c3content rfl rfl rfl
    (by decide) rfl (by rw [c3content_length]; decide)


/-! ### C6 counterexample: the claim's scenario on the program itself -/

/-- The chunk whose rewrite call the oracles make fail. -/
def c6fail : List Char := '`' :: '`' :: '`' :: 'b' :: List.replicate 9999 'b'

/-- 21013-character content whose second heading section is `c6fail`. -/
def c6content : List Char :=
  List.replicate 11000 'a' ++ "<h1>s</h1>".toList ++ c6fail

def c6cReq : AnalyzeRequest :=
  ⟨some c6content, "T".toList, some "k".toList, some "b".toList⟩

def c6cOracles : Oracles :=
  ⟨.parsed [['q']], false, fun _ => true, fun _ => false, false, .ok [],
   fun j => if j = 1 then none else some ['X'], fun _ => false⟩

theorem c6fail_length : c6fail.length = 10003 := by
  unfold c6fail
  rw [List.length_cons, List.length_cons, List.length_cons, List.length_cons,
    List.length_replicate]

theorem c6content_length : c6content.length = 21013 := by
  unfold c6content
  rw [List.length_append, List.length_append, List.length_replicate, c6fail_length]
  decide

/-- Claim C6 (counterexample): a concrete chunked request whose oracles make
chunk 1's rewrite call fail and every other chunk call succeed -- the exact
scenario of the claim -- actually returns a 500 carrying the `DOMParser`
message with only the planner's LLM call attempted: no rewrite call happens,
nothing is substituted, and there is no 200 response. -/
theorem chunked_request_500_counterexample :
    20000 < c6content.length ∧
    c6cOracles.rewriteChunk 0 = some ['X'] ∧
    c6cOracles.rewriteChunk 1 = none ∧
    (analyzeHandler c6cReq c6cOracles).1 = .failure domParserError ∧
    (analyzeHandler c6cReq c6cOracles).2.llmCalls = 1 := by
  have h := analyzeHandler_chunked_fails c6cReq c6cOracles c6content rfl rfl rfl
    (by decide) rfl (by rw [c6content_length]; decide)
  rw [h]
  exact ⟨by rw [c6content_length]; decide, rfl, rfl, rfl, rfl⟩

end ContentOps
